import Mathlib

/-!
Shallow embedding of the indicator / signal engine of the yfinance trading
bot (src/src/App.tsx).  Closing prices are modelled as rationals (`ℚ`);
JavaScript `null` becomes `Option.none`.  Bollinger bands need a square
root, so they live in `ℝ`.

Modelling conventions, noted where they matter:
* `Array.prototype.slice(-period)` on a guarded call (`length ≥ period ≥ 1`)
  is `List.drop (length - period)`.
* `calcMACD` on an empty array yields `NaN` in JavaScript (the seed
  `values[0]` is `undefined`); `NaN` serializes to JSON `null` and, inside
  `generateSignal`, only occurs when `rsi`/`stochastic` are `null` as well,
  so the whole-response behaviour is faithfully modelled by `Option.none`.
* `ℚ` division by zero yields `0` where JavaScript yields `NaN`
  (`calcStochastic` on a flat window); no claim below depends on the
  numeric value produced on that path, only on the fact that the function
  returns a value with an unguarded zero divisor.
-/

namespace TradingBot

/-- The three trading signals emitted by `generateSignal`. -/
inductive Signal where
  | Buy
  | Sell
  | Hold
deriving DecidableEq, Repr

/-- The trailing window of the last `period` values:
`values.slice(-period)` for `1 ≤ period ≤ values.length`. -/
def lastWindow (values : List ℚ) (period : Nat) : List ℚ :=
  values.drop (values.length - period)

/-- `calcSMA` from src/src/App.tsx: `null` when there are fewer than
`period` values, otherwise the sum of the last `period` values divided by
`period`. -/
def calcSMA (values : List ℚ) (period : Nat) : Option ℚ :=
  if values.length < period then none
  else some ((lastWindow values period).sum / (period : ℚ))

/-- The consecutive deltas `values[i] - values[i-1]` walked by `calcRSI`'s
loop, i.e. the `period` transitions inside the last `period + 1` values. -/
def rsiDiffs (values : List ℚ) (period : Nat) : List ℚ :=
  let window := lastWindow values (period + 1)
  List.zipWith (fun a b => a - b) window.tail window

/-- Accumulated `gains` of `calcRSI`: positive deltas summed. -/
def rsiGains (values : List ℚ) (period : Nat) : ℚ :=
  ((rsiDiffs values period).map (fun d => if 0 < d then d else 0)).sum

/-- Accumulated `losses` of `calcRSI`: `losses -= diff` on the non-positive
branch, i.e. the sum of `-d` over deltas `d ≤ 0`. -/
def rsiLosses (values : List ℚ) (period : Nat) : ℚ :=
  ((rsiDiffs values period).map (fun d => if 0 < d then 0 else -d)).sum

/-- `calcRSI` from src/src/App.tsx.  Needs `period + 1` values; on a flat
window (`gains + losses === 0`) returns `50`; otherwise
`100 - 100/(1 + rs)` with `rs = gains / (losses || 1e-9)` (the JavaScript
`||` floors a zero `losses` to `1e-9`). -/
def calcRSI (values : List ℚ) (period : Nat := 14) : Option ℚ :=
  if values.length < period + 1 then none
  else
    let gains := rsiGains values period
    let losses := rsiLosses values period
    if gains + losses = 0 then some 50
    else some (100 - 100 / (1 + gains / (if losses = 0 then 1e-9 else losses)))

/-- The exponential moving average used inside `calcMACD`: smoothing
constant `k = 2/(period+1)`, seeded with the first value and folded forward
over the whole series.  Returns `0` on an empty series; `calcMACD` never
calls it there. -/
def emaFrom (period : Nat) (seed : ℚ) (rest : List ℚ) : ℚ :=
  rest.foldl
    (fun prev v => v * (2 / ((period : ℚ) + 1)) + prev * (1 - 2 / ((period : ℚ) + 1)))
    seed

/-- `calcMACD` from src/src/App.tsx: `EMA(12) - EMA(26)` over the whole
series, no length guard.  On the empty series JavaScript produces `NaN`
(serialized as JSON `null`); modelled as `none`. -/
def calcMACD (values : List ℚ) : Option ℚ :=
  match values with
  | [] => none
  | v :: rest => some (emaFrom 12 v rest - emaFrom 26 v rest)

/-- `EMA` as the specification words it: smoothing constant `2/(period+1)`,
seeded with the *first* value in the series, recursively updated forward
through the whole series. -/
def emaSpec (period : Nat) (values : List ℚ) : ℚ :=
  match values with
  | [] => 0
  | v :: rest =>
      rest.foldl
        (fun prev x =>
          x * (2 / ((period : ℚ) + 1)) + prev * (1 - 2 / ((period : ℚ) + 1)))
        v

/-- The result record of `calcBollinger`. -/
structure Boll where
  upper : ℝ
  lower : ℝ
  sma : ℝ

/-- Mean of the last `period` values, as a real. -/
noncomputable def bollMean (values : List ℚ) (period : Nat) : ℝ :=
  (((lastWindow values period).map (fun (q : ℚ) => (q : ℝ))).sum) / (period : ℝ)

/-- Population variance (divide by `period`, not `period - 1`) of the last
`period` values around `bollMean`. -/
noncomputable def bollPopVar (values : List ℚ) (period : Nat) : ℝ :=
  (((lastWindow values period).map
      (fun (q : ℚ) => ((q : ℝ) - bollMean values period) ^ 2)).sum) / (period : ℝ)

/-- `Math.sqrt` of the population variance. -/
noncomputable def bollStd (values : List ℚ) (period : Nat) : ℝ :=
  Real.sqrt (bollPopVar values period)

/-- `calcBollinger` from src/src/App.tsx: `null` when there are fewer than
`period` values, otherwise `{upper: sma + 2·std, lower: sma - 2·std, sma}`
with `std` the population standard deviation of the trailing window. -/
noncomputable def calcBollinger (values : List ℚ) (period : Nat := 20) : Option Boll :=
  if values.length < period then none
  else
    some
      { upper := bollMean values period + 2 * bollStd values period
        lower := bollMean values period - 2 * bollStd values period
        sma := bollMean values period }

/-- `Math.max(...slice)` over the trailing window (`0` on an empty window,
which `calcStochastic` never reaches). -/
def winHigh (values : List ℚ) (period : Nat) : ℚ :=
  match lastWindow values period with
  | [] => 0
  | h :: t => t.foldl max h

/-- `Math.min(...slice)` over the trailing window. -/
def winLow (values : List ℚ) (period : Nat) : ℚ :=
  match lastWindow values period with
  | [] => 0
  | h :: t => t.foldl min h

/-- `calcStochastic` from src/src/App.tsx: `null` when there are fewer than
`period` values, otherwise `(close - low) / (high - low) * 100` where
`close = values[values.length - 1]` and `high`/`low` are the window
extrema.  The division is unguarded: on a flat window the divisor
`high - low` is `0` (JavaScript produces `NaN` there; `ℚ` produces `0` —
no claim depends on that value). -/
def calcStochastic (values : List ℚ) (period : Nat := 14) : Option ℚ :=
  if values.length < period then none
  else
    match lastWindow values period with
    | [] => none
    | _ :: _ =>
        some ((((values.getLast?).getD 0) - winLow values period)
          / (winHigh values period - winLow values period) * 100)

/-- `generateSignal` from src/src/App.tsx.  The whole decision ladder sits
inside the guard `rsi !== null && macd !== null && stochastic !== null`;
any absent indicator falls through to `Hold / 0.5`. -/
def generateSignal (rsi macd stochastic : Option ℚ) : Signal × ℚ :=
  match rsi, macd, stochastic with
  | some r, some m, some s =>
      if r < 35 ∧ 0 < m ∧ s < 20 then (Signal.Buy, 0.85)
      else if 65 < r ∧ m < 0 ∧ 80 < s then (Signal.Sell, 0.85)
      else if 0 < m then (Signal.Buy, 0.6)
      else if m < 0 then (Signal.Sell, 0.6)
      else (Signal.Hold, 0.5)
  | _, _, _ => (Signal.Hold, 0.5)

/-- The upstream Yahoo Finance call, abstracted: either a non-2xx response
(`fetchYahooData` throws), or a 2xx response whose
`chart.result[0].indicators.quote[0].close` field is absent (`none`, the
`.filter` call then throws a `TypeError`) or an array of nullable closes. -/
inductive Upstream where
  | notOk
  | ok (close : Option (List (Option ℚ)))

/-- The success body assembled by the `serve` handler (the indicator part;
`pair` is echoed unchanged and carries no logic).  `lastPrice` is
`closes[closes.length - 1]`, `undefined` — absent — on an empty series. -/
structure SuccessBody where
  lastPrice : Option ℚ
  sma : Option ℚ
  rsi : Option ℚ
  macd : Option ℚ
  boll : Option Boll
  stochastic : Option ℚ
  signal : Signal × ℚ

/-- The HTTP response of the handler: a 200 success body, or a bare
`{error: message}` body with an explicit non-success status. -/
inductive HandlerResponse where
  | success (body : SuccessBody)
  | failure (status : Nat) (error : String)

/-- Indicator pipeline of the handler on the normalized closes. -/
noncomputable def indicatorsOf (closes : List ℚ) : SuccessBody :=
  { lastPrice := closes.getLast?
    sma := calcSMA closes 20
    rsi := calcRSI closes
    macd := calcMACD closes
    boll := calcBollinger closes
    stochastic := calcStochastic closes
    signal := generateSignal (calcRSI closes) (calcMACD closes) (calcStochastic closes) }

/-- The `serve` handler of src/src/App.tsx over the abstracted upstream:
every thrown error is caught and converted to `{error: e.message}` with
status 500; otherwise the close array is filtered of `null`s (order
preserved) and all indicators are computed from the result. -/
noncomputable def handler (u : Upstream) : HandlerResponse :=
  match u with
  | Upstream.notOk => HandlerResponse.failure 500 "Failed to fetch Yahoo Finance data"
  | Upstream.ok none =>
      HandlerResponse.failure 500 "Cannot read properties of undefined (reading 'filter')"
  | Upstream.ok (some raw) => HandlerResponse.success (indicatorsOf (raw.filterMap id))

/-! ## Helper lemmas -/

theorem length_lastWindow (values : List ℚ) (period : Nat)
    (h : period ≤ values.length) : (lastWindow values period).length = period := by
  simp [lastWindow, Nat.sub_sub_self h]

/-! ## C1 -/

/-- C1, counterexample: with `macd = 1` present and positive but `rsi` and
`stochastic` absent, `generateSignal` returns `Hold/0.5`, not the claimed
`Buy/0.6`. -/
theorem generateSignal_macd_only_cex :
    generateSignal none (some 1) none = (Signal.Hold, 0.5) ∧
    ((Signal.Hold, (0.5 : ℚ)) ≠ (Signal.Buy, (0.6 : ℚ))) := by
  refine ⟨rfl, ?_⟩
  simp

/-- C1, amended: the `Buy/0.6` and `Sell/0.6` branches fire only when all
three indicators are present and neither strict band matches; whenever
`rsi` or `stochastic` is absent the result is `Hold/0.5` regardless of
`macd`. -/
theorem generateSignal_amended :
    (∀ m s : Option ℚ, generateSignal none m s = (Signal.Hold, 0.5)) ∧
    (∀ r m : Option ℚ, generateSignal r m none = (Signal.Hold, 0.5)) ∧
    (∀ r m s : ℚ, ¬(r < 35 ∧ 0 < m ∧ s < 20) → ¬(65 < r ∧ m < 0 ∧ 80 < s) →
      0 < m → generateSignal (some r) (some m) (some s) = (Signal.Buy, 0.6)) ∧
    (∀ r m s : ℚ, ¬(r < 35 ∧ 0 < m ∧ s < 20) → ¬(65 < r ∧ m < 0 ∧ 80 < s) →
      m < 0 → generateSignal (some r) (some m) (some s) = (Signal.Sell, 0.6)) := by
  refine ⟨?_, ?_, ?_, ?_⟩
  · intro m s; cases m <;> cases s <;> rfl
  · intro r m; cases r <;> cases m <;> rfl
  · intro r m s h1 h2 h3
    simp only [generateSignal, if_neg h1, if_neg h2, if_pos h3]
  · intro r m s h1 h2 h3
    have h3' : ¬ (0 < m) := not_lt.mpr h3.le
    simp only [generateSignal, if_neg h1, if_neg h2, if_neg h3', if_pos h3]

/-- C1, witness: `rsi = 50, macd = 1, stochastic = 50` satisfies neither
strict band and yields `Buy/0.6`. -/
theorem generateSignal_amended_witness :
    generateSignal (some 50) (some 1) (some 50) = (Signal.Buy, 0.6) :=
  generateSignal_amended.2.2.1 50 1 50 (by norm_num) (by norm_num) (by norm_num)

/-! ## C2 -/

/-- C2: with all three indicators present the decision ladder is evaluated
in fixed priority order with first match winning (strict Buy band `0.85`,
strict Sell band `0.85`, `macd > 0` Buy `0.6`, `macd < 0` Sell `0.6`, else
`Hold/0.5`); all-absent indicators yield `Hold/0.5`; the spec's sample
vectors evaluate as stated. -/
theorem generateSignal_priority :
    (∀ r m s : ℚ, generateSignal (some r) (some m) (some s) =
      if r < 35 ∧ 0 < m ∧ s < 20 then (Signal.Buy, 0.85)
      else if 65 < r ∧ m < 0 ∧ 80 < s then (Signal.Sell, 0.85)
      else if 0 < m then (Signal.Buy, 0.6)
      else if m < 0 then (Signal.Sell, 0.6)
      else (Signal.Hold, 0.5)) ∧
    generateSignal none none none = (Signal.Hold, 0.5) ∧
    generateSignal (some 30) (some 1) (some 10) = (Signal.Buy, 0.85) ∧
    generateSignal (some 70) (some (-1)) (some 90) = (Signal.Sell, 0.85) ∧
    generateSignal (some 50) (some (1/2)) (some 50) = (Signal.Buy, 0.6) := by
  refine ⟨fun r m s => rfl, rfl, ?_, ?_, ?_⟩
  · norm_num [generateSignal]
  · norm_num [generateSignal]
  · norm_num [generateSignal]

/-! ## C9 -/

/-- C9: for positive periods, `calcSMA` is absent iff the series is shorter
than the period, and otherwise is the arithmetic mean (sum divided by
`period`) of the trailing window of exactly `period` values. -/
theorem calcSMA_spec (values : List ℚ) (period : Nat) (_hp : 0 < period) :
    (calcSMA values period = none ↔ values.length < period) ∧
    (period ≤ values.length →
      (lastWindow values period).length = period ∧
      calcSMA values period = some ((lastWindow values period).sum / period)) := by
  constructor
  · by_cases h : values.length < period <;> simp [calcSMA, h]
  · intro hle
    exact ⟨length_lastWindow values period hle, by simp [calcSMA, not_lt.mpr hle]⟩

/-- C9, witness: `SMA([1,2,3,4,5], 3) = 4`. -/
theorem calcSMA_spec_witness : calcSMA [1, 2, 3, 4, 5] 3 = some 4 := by
  have h := (calcSMA_spec [1, 2, 3, 4, 5] 3 (by norm_num)).2 (by norm_num)
  rw [h.2]
  norm_num [lastWindow]

/-! ## C4 -/

/-- C4: `calcRSI` is absent iff fewer than `period + 1` values are
available; otherwise it is `50` when `gains + losses = 0` and
`100 - 100/(1 + gains/losses)` with the zero-`losses` floor `1e-9`
otherwise. -/
theorem calcRSI_spec (values : List ℚ) (period : Nat) :
    (calcRSI values period = none ↔ values.length < period + 1) ∧
    (period + 1 ≤ values.length →
      calcRSI values period =
        some (if rsiGains values period + rsiLosses values period = 0 then 50
          else 100 - 100 / (1 + rsiGains values period /
            (if rsiLosses values period = 0 then 1e-9
             else rsiLosses values period)))) := by
  constructor
  · by_cases h : values.length < period + 1
    · simp [calcRSI, h]
    · simp only [calcRSI, if_neg h]
      split <;> simp [h]
  · intro hle
    simp only [calcRSI, if_neg (not_lt.mpr hle)]
    rw [apply_ite some]

/-- C4, witness: a flat 15-value series has `gains = losses = 0` and RSI
exactly `50`. -/
theorem calcRSI_spec_witness :
    calcRSI [5, 5, 5, 5, 5, 5, 5, 5, 5, 5, 5, 5, 5, 5, 5] 14 = some 50 := by
  have h := (calcRSI_spec [5, 5, 5, 5, 5, 5, 5, 5, 5, 5, 5, 5, 5, 5, 5] 14).2
    (by norm_num)
  rw [h]
  norm_num [rsiGains, rsiLosses, rsiDiffs, lastWindow]

/-! ## C5 -/

theorem rsiGains_nonneg (values : List ℚ) (period : Nat) :
    0 ≤ rsiGains values period := by
  apply List.sum_nonneg
  intro x hx
  obtain ⟨d, _, rfl⟩ := List.mem_map.mp hx
  split <;> simp_all [le_of_lt]

theorem rsiLosses_nonneg (values : List ℚ) (period : Nat) :
    0 ≤ rsiLosses values period := by
  apply List.sum_nonneg
  intro x hx
  obtain ⟨d, _, rfl⟩ := List.mem_map.mp hx
  split
  · exact le_refl 0
  · simp only [neg_nonneg]
    exact le_of_not_lt (by assumption)

theorem rsiLosses_eq_zero_of_mono (values : List ℚ) (period : Nat)
    (hmono : ∀ d ∈ rsiDiffs values period, 0 ≤ d) :
    rsiLosses values period = 0 := by
  apply List.sum_eq_zero
  intro x hx
  obtain ⟨d, hd, rfl⟩ := List.mem_map.mp hx
  rcases lt_or_eq_of_le (hmono d hd) with h | h
  · simp [h]
  · simp [← h]

/-- C5, counterexample: a strictly decreasing 15-value series yields RSI
exactly `0` (not strictly above `0`), and a strictly increasing series with
tiny increments (`1e-7` each) yields RSI `140000/1401 ≈ 99.93 < 99.99`,
refuting both the open-interval range and the unconditional `> 99.99`
bound for increasing series. -/
theorem calcRSI_range_cex :
    calcRSI [15, 14, 13, 12, 11, 10, 9, 8, 7, 6, 5, 4, 3, 2, 1] 14 = some 0 ∧
    ¬ (0 < (0 : ℚ)) ∧
    List.Chain' (· < ·)
      [0, 1/10000000, 2/10000000, 3/10000000, 4/10000000, 5/10000000,
       6/10000000, 7/10000000, 8/10000000, 9/10000000, 10/10000000,
       11/10000000, 12/10000000, 13/10000000, (14/10000000 : ℚ)] ∧
    calcRSI
      [0, 1/10000000, 2/10000000, 3/10000000, 4/10000000, 5/10000000,
       6/10000000, 7/10000000, 8/10000000, 9/10000000, 10/10000000,
       11/10000000, 12/10000000, 13/10000000, 14/10000000] 14 =
      some (140000/1401) ∧
    (140000/1401 : ℚ) < 99.99 := by
  refine ⟨?_, by norm_num, ?_, ?_, by norm_num⟩
  · norm_num [calcRSI, rsiGains, rsiLosses, rsiDiffs, lastWindow]
  · norm_num [List.chain'_cons]
  · norm_num [calcRSI, rsiGains, rsiLosses, rsiDiffs, lastWindow]

/-- C5, amended: whenever RSI is present it lies in `[0, 100)` — it can be
exactly `0` on an all-loss window — and on a monotone (non-decreasing)
window it is below `100`, with `RSI > 99.99` guaranteed only once the
summed gains reach `1e-4` (the epsilon floor makes `RS = gains · 10⁹`). -/
theorem calcRSI_range_amended :
    (∀ (values : List ℚ) (period : Nat) (r : ℚ),
      calcRSI values period = some r → 0 ≤ r ∧ r < 100) ∧
    (∀ (values : List ℚ) (period : Nat) (r : ℚ),
      (∀ d ∈ rsiDiffs values period, 0 ≤ d) →
      (1e-4 : ℚ) ≤ rsiGains values period →
      calcRSI values period = some r → 99.99 < r ∧ r < 100) := by
  constructor
  · intro values period r h
    by_cases hlen : values.length < period + 1
    · simp [calcRSI, hlen] at h
    · simp only [calcRSI, if_neg hlen] at h
      split at h
      · obtain rfl : (50 : ℚ) = r := Option.some.inj h
        norm_num
      · obtain rfl := (Option.some.inj h).symm
        have hg := rsiGains_nonneg values period
        have hl := rsiLosses_nonneg values period
        set den := if rsiLosses values period = 0 then (1e-9 : ℚ)
          else rsiLosses values period with hden
        have hdpos : 0 < den := by
          rw [hden]; split
          · norm_num
          · exact lt_of_le_of_ne hl (Ne.symm (by assumption))
        have hq : 0 ≤ rsiGains values period / den := div_nonneg hg hdpos.le
        have h1 : (0 : ℚ) < 100 / (1 + rsiGains values period / den) :=
          div_pos (by norm_num) (by linarith)
        have h2 : 100 / (1 + rsiGains values period / den) ≤ 100 :=
          div_le_self (by norm_num) (by linarith)
        constructor <;> linarith
  · intro values period r hmono hgain h
    by_cases hlen : values.length < period + 1
    · simp [calcRSI, hlen] at h
    · have hl0 := rsiLosses_eq_zero_of_mono values period hmono
      have hne : ¬ (rsiGains values period + rsiLosses values period = 0) := by
        rw [hl0, add_zero]
        intro hz
        rw [hz] at hgain
        norm_num at hgain
      have hgpos : (0 : ℚ) < rsiGains values period :=
        lt_of_lt_of_le (by norm_num) hgain
      have hne : ¬ (rsiGains values period + 0 = 0) := by
        rw [add_zero]; exact ne_of_gt hgpos
      simp only [calcRSI, if_neg hlen] at h
      rw [hl0, if_neg hne, if_pos rfl] at h
      obtain rfl := (Option.some.inj h).symm
      have hdiv : rsiGains values period / (1e-9 : ℚ) =
          rsiGains values period * 1000000000 := by
        rw [div_eq_mul_inv]
        norm_num
      have hrs : (100000 : ℚ) ≤ rsiGains values period / 1e-9 := by
        rw [hdiv]
        calc (100000 : ℚ) = 1e-4 * 1000000000 := by norm_num
          _ ≤ rsiGains values period * 1000000000 :=
              mul_le_mul_of_nonneg_right hgain (by norm_num)
      have h1 : (0 : ℚ) < 100 / (1 + rsiGains values period / 1e-9) :=
        div_pos (by norm_num) (by linarith)
      have h2 : 100 / (1 + rsiGains values period / 1e-9) ≤
          100 / (100001 : ℚ) :=
        div_le_div_of_nonneg_left (by norm_num) (by norm_num) (by linarith)
      have h3 : (100 : ℚ) / 100001 < 1 / 100 := by norm_num
      exact ⟨by linarith, by linarith⟩

/-- C5, witness: the strictly increasing series `[1, …, 15]` has summed
gains `14 ≥ 1e-4` and RSI `1400000000000/14000000001`, strictly between
`99.99` and `100`. -/
theorem calcRSI_range_amended_witness :
    (99.99 : ℚ) < 1400000000000/14000000001 ∧
    (1400000000000/14000000001 : ℚ) < 100 :=
  calcRSI_range_amended.2
    [1, 2, 3, 4, 5, 6, 7, 8, 9, 10, 11, 12, 13, 14, 15] 14
    (1400000000000/14000000001)
    (by norm_num [rsiDiffs, lastWindow])
    (by norm_num [rsiGains, rsiDiffs, lastWindow])
    (by norm_num [calcRSI, rsiGains, rsiLosses, rsiDiffs, lastWindow])

/-! ## C6 -/

/-- C6: on every non-empty series `calcMACD` succeeds and equals
`EMA12 - EMA26` in the spec's sense (smoothing `2/(period+1)`, seeded with
the first value, folded over the entire series); it is absent (JavaScript
`NaN`) exactly on the empty series, so no minimum-length guard exists. -/
theorem calcMACD_spec :
    (∀ (v : ℚ) (rest : List ℚ), calcMACD (v :: rest) =
      some (emaSpec 12 (v :: rest) - emaSpec 26 (v :: rest))) ∧
    (∀ values : List ℚ, (calcMACD values).isSome ↔ values ≠ []) := by
  refine ⟨fun v rest => rfl, fun values => ?_⟩
  cases values <;> simp [calcMACD]

/-! ## C7 -/

theorem foldl_max_mem {α : Type} [LinearOrder α] (a : α) (t : List α) :
    t.foldl max a ∈ a :: t := by
  induction t generalizing a with
  | nil => simp
  | cons b t ih =>
    simp only [List.foldl_cons]
    rcases List.mem_cons.mp (ih (max a b)) with h1 | h1
    · rcases max_choice a b with hm | hm <;> rw [h1, hm] <;> simp
    · simp [h1]

theorem le_foldl_max {α : Type} [LinearOrder α] (a : α) (t : List α) :
    ∀ x ∈ a :: t, x ≤ t.foldl max a := by
  induction t generalizing a with
  | nil =>
    intro x hx
    rw [List.mem_singleton] at hx
    simp [hx]
  | cons b t ih =>
    intro x hx
    simp only [List.foldl_cons]
    rcases List.mem_cons.mp hx with rfl | hx'
    · exact le_trans (le_max_left x b) (ih (max x b) _ (List.mem_cons_self _ _))
    · rcases List.mem_cons.mp hx' with rfl | hx2
      · exact le_trans (le_max_right a x) (ih (max a x) _ (List.mem_cons_self _ _))
      · exact ih (max a b) x (List.mem_cons_of_mem _ hx2)

theorem foldl_min_mem {α : Type} [LinearOrder α] (a : α) (t : List α) :
    t.foldl min a ∈ a :: t := by
  induction t generalizing a with
  | nil => simp
  | cons b t ih =>
    simp only [List.foldl_cons]
    rcases List.mem_cons.mp (ih (min a b)) with h1 | h1
    · rcases min_choice a b with hm | hm <;> rw [h1, hm] <;> simp
    · simp [h1]

theorem foldl_min_le {α : Type} [LinearOrder α] (a : α) (t : List α) :
    ∀ x ∈ a :: t, t.foldl min a ≤ x := by
  induction t generalizing a with
  | nil =>
    intro x hx
    rw [List.mem_singleton] at hx
    simp [hx]
  | cons b t ih =>
    intro x hx
    simp only [List.foldl_cons]
    rcases List.mem_cons.mp hx with rfl | hx'
    · exact le_trans (ih (min x b) _ (List.mem_cons_self _ _)) (min_le_left x b)
    · rcases List.mem_cons.mp hx' with rfl | hx2
      · exact le_trans (ih (min a x) _ (List.mem_cons_self _ _)) (min_le_right a x)
      · exact ih (min a b) x (List.mem_cons_of_mem _ hx2)

theorem lastWindow_cons (values : List ℚ) (period : Nat) (hp : 0 < period)
    (hle : period ≤ values.length) :
    ∃ a t, lastWindow values period = a :: t := by
  cases hw : lastWindow values period with
  | nil =>
    have := length_lastWindow values period hle
    rw [hw] at this
    simp at this
    omega
  | cons a t => exact ⟨a, t, rfl⟩

/-- C7: `calcStochastic` is absent iff fewer than `period` values exist;
otherwise it is `(close - low) / (high - low) * 100` where `close` is the
last value of the series and `winHigh`/`winLow` are attained extrema of
the trailing window (members of the window bounding every element). -/
theorem calcStochastic_spec (values : List ℚ) (period : Nat) (hp : 0 < period) :
    (calcStochastic values period = none ↔ values.length < period) ∧
    (period ≤ values.length →
      winHigh values period ∈ lastWindow values period ∧
      winLow values period ∈ lastWindow values period ∧
      (∀ x ∈ lastWindow values period, x ≤ winHigh values period) ∧
      (∀ x ∈ lastWindow values period, winLow values period ≤ x) ∧
      calcStochastic values period =
        some ((((values.getLast?).getD 0) - winLow values period)
          / (winHigh values period - winLow values period) * 100)) := by
  constructor
  · by_cases hlt : values.length < period
    · simp [calcStochastic, hlt]
    · obtain ⟨a, t, hw⟩ := lastWindow_cons values period hp (not_lt.mp hlt)
      simp [calcStochastic, hlt, hw]
  · intro hle
    obtain ⟨a, t, hw⟩ := lastWindow_cons values period hp hle
    have hmax := foldl_max_mem a t
    have hmin := foldl_min_mem a t
    have hhigh : winHigh values period = t.foldl max a := by simp [winHigh, hw]
    have hlow : winLow values period = t.foldl min a := by simp [winLow, hw]
    refine ⟨?_, ?_, ?_, ?_, ?_⟩
    · rw [hhigh, hw]; exact hmax
    · rw [hlow, hw]; exact hmin
    · intro x hx
      rw [hhigh]
      exact le_foldl_max a t x (hw ▸ hx)
    · intro x hx
      rw [hlow]
      exact foldl_min_le a t x (hw ▸ hx)
    · simp [calcStochastic, not_lt.mpr hle, hw]

/-- C7, witness: `Stochastic([1,…,14], 14) = 100` — the close is the window
maximum. -/
theorem calcStochastic_spec_witness :
    calcStochastic [1, 2, 3, 4, 5, 6, 7, 8, 9, 10, 11, 12, 13, 14] 14 =
      some 100 := by
  have h := (calcStochastic_spec [1, 2, 3, 4, 5, 6, 7, 8, 9, 10, 11, 12, 13, 14]
    14 (by norm_num)).2 (by norm_num)
  rw [h.2.2.2.2]
  simp only [winHigh, winLow, lastWindow]
  norm_num

/-! ## C10 -/

theorem foldl_max_replicate (c : ℚ) (n : Nat) :
    (List.replicate n c).foldl max c = c := by
  induction n with
  | zero => rfl
  | succ n ih => simpa [List.replicate_succ, max_self] using ih

theorem foldl_min_replicate (c : ℚ) (n : Nat) :
    (List.replicate n c).foldl min c = c := by
  induction n with
  | zero => rfl
  | succ n ih => simpa [List.replicate_succ, min_self] using ih

/-- C10: on a flat trailing window `calcStochastic` still returns a value —
neither failing nor absent — while the divisor `high - low` of its
unguarded division is exactly `0`. -/
theorem calcStochastic_flat (values : List ℚ) (period : Nat) (c : ℚ)
    (hp : 0 < period) (hle : period ≤ values.length)
    (hflat : lastWindow values period = List.replicate period c) :
    (calcStochastic values period).isSome = true ∧
    winHigh values period - winLow values period = 0 := by
  obtain ⟨n, rfl⟩ : ∃ n, period = n + 1 :=
    ⟨period - 1, (Nat.succ_pred_eq_of_pos hp).symm⟩
  rw [List.replicate_succ] at hflat
  have hhigh : winHigh values (n + 1) = c := by
    simp [winHigh, hflat, foldl_max_replicate]
  have hlow : winLow values (n + 1) = c := by
    simp [winLow, hflat, foldl_min_replicate]
  refine ⟨?_, by rw [hhigh, hlow, sub_self]⟩
  simp [calcStochastic, not_lt.mpr hle, hflat]

/-- C10, witness: a constant 14-value series is a flat window; the result
is present and the divisor is `0`. -/
theorem calcStochastic_flat_witness :
    (calcStochastic (List.replicate 14 (7 : ℚ)) 14).isSome = true ∧
    winHigh (List.replicate 14 (7 : ℚ)) 14 - winLow (List.replicate 14 (7 : ℚ)) 14 = 0 :=
  calcStochastic_flat (List.replicate 14 7) 14 7 (by norm_num) (by simp)
    (by simp [lastWindow])

/-! ## C8 -/

/-- C8: for at least `period` values `calcBollinger` returns the record
`{upper, lower, sma}` with `sma` the mean of the trailing window of exactly
`period` values, `std = √(population variance)` (the variance divides by
`period`, per `bollPopVar`), `upper = sma + 2·std`, `lower = sma - 2·std`,
hence symmetric about `sma` by exactly `2·std`; shorter series give
absent. -/
theorem calcBollinger_spec (values : List ℚ) (period : Nat) (_hp : 0 < period) :
    (calcBollinger values period = none ↔ values.length < period) ∧
    (period ≤ values.length →
      (lastWindow values period).length = period ∧
      calcBollinger values period =
        some { upper := bollMean values period + 2 * bollStd values period
               lower := bollMean values period - 2 * bollStd values period
               sma := bollMean values period } ∧
      (∀ b, calcBollinger values period = some b →
        b.sma = bollMean values period ∧
        b.upper - b.sma = 2 * bollStd values period ∧
        b.sma - b.lower = 2 * bollStd values period ∧
        b.upper - b.sma = b.sma - b.lower ∧
        bollStd values period = Real.sqrt (bollPopVar values period))) := by
  constructor
  · by_cases h : values.length < period <;> simp [calcBollinger, h]
  · intro hle
    refine ⟨length_lastWindow values period hle, ?_, ?_⟩
    · simp [calcBollinger, not_lt.mpr hle]
    · intro b hb
      rw [calcBollinger, if_neg (not_lt.mpr hle)] at hb
      obtain rfl := (Option.some.inj hb).symm
      refine ⟨rfl, by ring, by ring, by ring, rfl⟩

/-- C8, witness: a constant window of twenty `5`s has mean `5`, population
standard deviation `0`, and bands `upper = lower = sma = 5`. -/
theorem calcBollinger_spec_witness :
    calcBollinger (List.replicate 20 (5 : ℚ)) 20 =
      some { upper := 5, lower := 5, sma := (5 : ℝ) } := by
  have h := ((calcBollinger_spec (List.replicate 20 (5 : ℚ)) 20
    (by norm_num)).2 (by simp)).2.1
  rw [h]
  have hwin : lastWindow (List.replicate 20 (5 : ℚ)) 20 =
      List.replicate 20 (5 : ℚ) := by
    simp [lastWindow]
  have hm : bollMean (List.replicate 20 (5 : ℚ)) 20 = 5 := by
    rw [bollMean, hwin, List.map_replicate, List.sum_replicate]
    norm_num
  have hv : bollPopVar (List.replicate 20 (5 : ℚ)) 20 = 0 := by
    rw [bollPopVar, hwin]
    simp only [hm, List.map_replicate]
    norm_num [List.sum_replicate]
  have hs : bollStd (List.replicate 20 (5 : ℚ)) 20 = 0 := by
    rw [bollStd, hv, Real.sqrt_zero]
  rw [hm, hs]
  norm_num

/-! ## C3 -/

theorem filterMap_id_map_some_sublist (raw : List (Option ℚ)) :
    List.Sublist ((raw.filterMap id).map some) raw := by
  induction raw with
  | nil => simp
  | cons a t ih =>
    cases a with
    | none => simpa using List.Sublist.cons none ih
    | some v => simpa using List.Sublist.cons₂ (some v) ih

/-- C3, counterexample: a 2xx upstream response whose close array is
present but empty (or becomes empty after dropping `null`s) is *not*
converted to an error — the handler returns a 200 success body with every
indicator absent and signal `Hold/0.5`. -/
theorem handler_empty_close_cex :
    handler (Upstream.ok (some [])) =
      HandlerResponse.success
        { lastPrice := none, sma := none, rsi := none, macd := none
          boll := none, stochastic := none, signal := (Signal.Hold, 0.5) } := by
  simp only [handler, List.filterMap_nil, indicatorsOf]
  norm_num [calcSMA, calcRSI, calcMACD, calcBollinger, calcStochastic,
    generateSignal]

/-- C3, amended: the failing invocations are a non-2xx upstream response
and an *absent* close array; both are caught and become exactly
`{error: message}` with status 500, carrying no indicator fields.  A
present close array — even one that is empty after dropping `null`s —
never produces an error; its `null` entries are dropped in order
(`filterMap id`, an order-preserving sublist) before any indicator is
computed. -/
theorem handler_error_policy :
    handler Upstream.notOk =
      HandlerResponse.failure 500 "Failed to fetch Yahoo Finance data" ∧
    handler (Upstream.ok none) =
      HandlerResponse.failure 500
        "Cannot read properties of undefined (reading 'filter')" ∧
    (∀ raw : List (Option ℚ), handler (Upstream.ok (some raw)) =
      HandlerResponse.success (indicatorsOf (raw.filterMap id))) ∧
    (∀ raw : List (Option ℚ),
      List.Sublist ((raw.filterMap id).map some) raw) ∧
    (∀ (raw : List (Option ℚ)) (status : Nat) (msg : String),
      handler (Upstream.ok (some raw)) ≠ HandlerResponse.failure status msg) := by
  refine ⟨rfl, rfl, fun raw => rfl, filterMap_id_map_some_sublist, ?_⟩
  intro raw status msg h
  exact HandlerResponse.noConfusion h

end TradingBot
